import Mathlib

/-!
# rod: the CDP client (`lib/cdp/client.go`) and its promise (`lib/utils/promise.go`)

A shallow embedding of the request/response correlation engine.

Modelling conventions

* A Go `error` interface value is a `GoError`; `GoError.nil` is the nil error.
* A Go `interface{}` value stored in a promise is a `GoValue`.
* A `[]byte` / `json.RawMessage` is an `Option String`; `none` is the nil slice.
* Pointers to promises are indices into `Client.heap`; `sync.Map` is an
  association list with unique keys.
* The transport behind `WebSocketable` is outside the package: what each of its
  methods returns is supplied to the operation that calls it.
* `encoding/json` is outside the package: an incoming message is given as the
  JSON object it parses to (`Frame`), or as `none` when it does not parse.
* Go `int` is taken to be 64 bits wide.
* `Call` blocks while other goroutines run, so it is split at the points where
  other goroutines can interleave: `Call.send`, `Call.register`, `Call.await`.
-/

namespace Rod

/-! ## Values -/

/-- Go `error` values seen by the client. -/
inductive GoError where
  | nil
  | other (msg : String)
  | protocol (code : Int) (message : String)
  | connClosed (details : GoError)
  deriving DecidableEq, Repr

/-- Go `interface{}` values stored in a promise. -/
inductive GoValue where
  | nil
  | str (s : String)
  | raw (m : Option String)
  deriving DecidableEq, Repr

/-! ## `utils.Promise` -/

/-- Promise helps to resolve or reject only once. `waitClosed` is the state of
the `wait` channel. -/
structure Promise where
  waitClosed : Bool
  done : Bool
  val : GoValue
  err : GoError
  deriving DecidableEq, Repr

/-- NewPromise instance: `&Promise{wait: make(chan struct{})}`. -/
def NewPromise : Promise :=
  { waitClosed := false, done := false, val := GoValue.nil, err := GoError.nil }

/-- Wait returns the channel closed by `Done`; the model returns whether a
receive on it is ready. -/
def Promise.Wait (p : Promise) : Bool := p.waitClosed

/-- Done results the promise with the given `val` and `err`. -/
def Promise.Done (p : Promise) (val : GoValue) (err : GoError) : Promise :=
  if p.done then p
  else { p with done := true, val := val, err := err, waitClosed := true }

/-- Result of the Done. -/
def Promise.Result (p : Promise) : GoValue × GoError := (p.val, p.err)

/-- Apply a list of `Done` calls in order. -/
def Promise.DoneAll (p : Promise) (calls : List (GoValue × GoError)) : Promise :=
  calls.foldl (fun q c => q.Done c.1 c.2) p

/-! ## Wire types -/

/-- Request to send to browser. -/
structure Request where
  ID : Int
  SessionID : String
  Method : String
  Params : String
  deriving DecidableEq, Repr

/-- Error descriptor of a response (`*cdp.Error`): code and message. -/
structure Error where
  Code : Int
  Message : String
  deriving DecidableEq, Repr

/-- Response from browser. -/
structure Response where
  ID : Int
  Result : Option String
  Error : Option Error
  deriving DecidableEq, Repr

/-- Event from browser. -/
structure Event where
  SessionID : String
  Method : String
  Params : Option String
  deriving DecidableEq, Repr

/-- An incoming message that parses as a JSON object: the fields the client's
three `json.Unmarshal` targets look at, each present or absent. -/
structure Frame where
  id : Option Int
  result : Option String
  error : Option Error
  sessionId : Option String
  method : Option String
  params : Option String
  deriving DecidableEq, Repr

/-- The `json.Unmarshal` into `struct { ID int }`: an absent field leaves the zero value. -/
def decodeID (f : Frame) : Int := f.id.getD 0

/-- The `json.Unmarshal` into `Response`. -/
def decodeResponse (f : Frame) : Response :=
  { ID := f.id.getD 0, Result := f.result, Error := f.error }

/-- The `json.Unmarshal` into `Event`. -/
def decodeEvent (f : Frame) : Event :=
  { SessionID := f.sessionId.getD "", Method := f.method.getD "", Params := f.params }

/-- What `ws.Read()` returns: the message (`none` when it is not valid JSON for
the client's targets) and the error. -/
structure ReadResult where
  data : Option Frame
  err : GoError
  deriving DecidableEq, Repr

/-! ## `cdp.Client` -/

/-- What the client has done to its transport. -/
structure WebSocketable where
  sent : List Request
  closeCalls : Nat
  deriving DecidableEq, Repr

/-- What is passed to `logger.Println`. -/
inductive LogItem where
  | req (r : Request)
  | res (r : Response)
  | evt (e : Event)
  deriving DecidableEq, Repr

/-- Client is a devtools protocol connection instance. `event` lists the values
received from the unbuffered `event` channel so far, `eventClosed` whether the
channel is closed, `heap` the promises allocated so far. -/
structure Client where
  wsURL : String
  ws : WebSocketable
  pending : List (Int × Nat)
  heap : List Promise
  event : List Event
  eventClosed : Bool
  count : Nat
  logger : List LogItem
  deriving DecidableEq, Repr

/-- New creates a cdp connection (with its transport attached). -/
def New (websocketURL : String) : Client :=
  { wsURL := websocketURL, ws := { sent := [], closeCalls := 0 }, pending := [],
    heap := [], event := [], eventClosed := false, count := 0, logger := [] }

/-! ### `sync.Map` -/

/-- `sync.Map.Load`. -/
def Load : List (Int × Nat) → Int → Option Nat
  | [], _ => none
  | (k, v) :: m, key => if k = key then some v else Load m key

/-- `sync.Map.Delete`. -/
def Delete : List (Int × Nat) → Int → List (Int × Nat)
  | [], _ => []
  | (k, v) :: m, key => if k = key then Delete m key else (k, v) :: Delete m key

/-- `sync.Map.Store`. -/
def Store (m : List (Int × Nat)) (key : Int) (v : Nat) : List (Int × Nat) :=
  (key, v) :: Delete m key

/-! ### Promises behind pointers -/

/-- `p.Done(val, err)` through the pointer `p`. -/
def doneAt (heap : List Promise) (p : Nat) (val : GoValue) (err : GoError) : List Promise :=
  match heap[p]? with
  | some pr => heap.set p (pr.Done val err)
  | none => heap

/-! ### Correlation ids -/

/-- `atomic.AddUint64(&count, delta)`: the new value of the 64-bit counter. -/
def atomicAddUint64 (count delta : Nat) : Nat := (count + delta) % 2 ^ 64

/-- The conversion `int(x)` of a `uint64` on a 64-bit platform. -/
def uint64ToInt (x : Nat) : Int :=
  if x % 2 ^ 64 < 2 ^ 63 then ((x % 2 ^ 64 : Nat) : Int) else ((x % 2 ^ 64 : Nat) : Int) - 2 ^ 64

/-! ### Close -/

/-- Close the underlying websocket connection and make all the pending
`Client.Call` return the reason immediately. `wsCloseErr` is what `ws.Close()`
returns. -/
def Close (c : Client) (reason wsCloseErr : GoError) : Client × GoError :=
  let heap := c.pending.foldl
    (fun h kv => doneAt h kv.2 GoValue.nil (GoError.connClosed reason)) c.heap
  ({ c with heap := heap, ws := { c.ws with closeCalls := c.ws.closeCalls + 1 } }, wsCloseErr)

/-! ### Call -/

/-- How a blocking operation ends. -/
inductive CallOutcome where
  | blocked
  | panicked
  | returned (data : Option String) (err : GoError)
  deriving DecidableEq, Repr

/-- Call, up to and including `ws.Send` (client.go lines 126-144). `marshalErr`
is the error of `json.Marshal`, `sendErr` that of `ws.Send`, `wsCloseErr` that of
`ws.Close`. The third component is the pair `Call` returns when it returns here. -/
def Call.send (c : Client) (sessionID method params : String)
    (marshalErr sendErr wsCloseErr : GoError) :
    Client × Request × Option (Option String × GoError) :=
  let count := atomicAddUint64 c.count 1
  let req : Request :=
    { ID := uint64ToInt count, SessionID := sessionID, Method := method, Params := params }
  let c1 := { c with count := count, logger := c.logger ++ [LogItem.req req] }
  if marshalErr ≠ GoError.nil then (c1, req, some (none, marshalErr))
  else
    let c2 := { c1 with ws := { c1.ws with sent := c1.ws.sent ++ [req] } }
    if sendErr ≠ GoError.nil then
      ((Close c2 sendErr wsCloseErr).1, req, some (none, GoError.connClosed sendErr))
    else (c2, req, none)

/-- Call, `p := utils.NewPromise(); cdp.pending.Store(req.ID, p)` (lines 146-147).
Returns the pointer `p`. -/
def Call.register (c : Client) (id : Int) : Client × Nat :=
  let p := c.heap.length
  ({ c with heap := c.heap ++ [NewPromise], pending := Store c.pending id p }, p)

/-- Call, the `select` and the deferred `pending.Delete` (lines 148-159).
`ctxErr` is `ctx.Err()` (non-nil exactly when `ctx.Done()` is closed);
`preferCtx` is the choice `select` makes when both cases are ready. -/
def Call.await (c : Client) (id : Int) (p : Nat) (ctxErr : GoError) (preferCtx : Bool) :
    Client × CallOutcome :=
  let pr := c.heap.getD p NewPromise
  let ctxReady : Bool := decide (ctxErr ≠ GoError.nil)
  let waitReady : Bool := pr.Wait
  let c1 := { c with pending := Delete c.pending id }
  if ctxReady && (!waitReady || preferCtx) then (c1, CallOutcome.returned none ctxErr)
  else if waitReady then
    match pr.Result with
    | (val, err) =>
      if err ≠ GoError.nil then (c1, CallOutcome.returned none err)
      else
        match val with
        | GoValue.raw m => (c1, CallOutcome.returned m GoError.nil)
        | _ => (c1, CallOutcome.panicked)
  else (c, CallOutcome.blocked)

/-! ### The dispatch loop -/

/-- One iteration of the loop of `consumeMessages` on a message that parses
(lines 178-204). -/
def dispatch (c : Client) (f : Frame) : Client :=
  if decodeID f ≠ 0 then
    let res := decodeResponse f
    let c1 := { c with logger := c.logger ++ [LogItem.res res] }
    match Load c1.pending (decodeID f) with
    | some p =>
      match res.Error with
      | some e => { c1 with heap := doneAt c1.heap p GoValue.nil (GoError.protocol e.Code e.Message) }
      | none => { c1 with heap := doneAt c1.heap p (GoValue.raw res.Result) GoError.nil }
    | none => c1
  else
    let evt := decodeEvent f
    { c with logger := c.logger ++ [LogItem.evt evt], event := c.event ++ [evt] }

/-- Where the loop of `consumeMessages` stands. -/
inductive LoopStatus where
  | reading
  | returned
  | panicked
  deriving DecidableEq, Repr

/-- Consume messages coming from the browser via the websocket: the loop run on
the successive results of `ws.Read()`. When the list is exhausted the loop is
blocked in `Read`. The deferred `close(cdp.event)` runs when the function
leaves. -/
def consumeMessages (wsCloseErr : GoError) : Client → List ReadResult → Client × LoopStatus
  | c, [] => (c, LoopStatus.reading)
  | c, r :: rs =>
    if r.err ≠ GoError.nil then
      ({ (Close c r.err wsCloseErr).1 with eventClosed := true }, LoopStatus.returned)
    else
      match r.data with
      | none => ({ c with eventClosed := true }, LoopStatus.panicked)
      | some f => consumeMessages wsCloseErr (dispatch c f) rs

/-! ### Interleavings -/

/-- The atomic actions of the goroutines sharing a client. -/
inductive Step where
  | callSend (sessionID method params : String) (marshalErr sendErr wsCloseErr : GoError)
  | callRegister (id : Int)
  | callAwait (id : Int) (p : Nat) (ctxErr : GoError) (preferCtx : Bool)
  | read (r : ReadResult) (wsCloseErr : GoError)
  | close (reason wsCloseErr : GoError)
  deriving DecidableEq, Repr

/-- One action. A `read` happens only while `consumeMessages` is running. -/
def step (c : Client) : Step → Client
  | Step.callSend s m p me se ce => (Call.send c s m p me se ce).1
  | Step.callRegister id => (Call.register c id).1
  | Step.callAwait id p ctxErr preferCtx => (Call.await c id p ctxErr preferCtx).1
  | Step.read r ce => if c.eventClosed then c else (consumeMessages ce c [r]).1
  | Step.close reason ce => (Close c reason ce).1

/-- A run of actions. -/
def exec (c : Client) (steps : List Step) : Client := steps.foldl step c

/-- The ids of the requests built so far, in the order `Call` built them. -/
def requestIDs (c : Client) : List Int :=
  c.logger.filterMap (fun item => match item with
    | LogItem.req r => some r.ID
    | _ => none)

/-- Whether an action is the start of a `Call`. -/
def Step.isCall : Step → Bool
  | Step.callSend _ _ _ _ _ _ => true
  | _ => false


/-- A promise on which `Done` has not been called: `done` is false and the
`wait` channel is open. -/
def Promise.Unresolved (p : Promise) : Prop := p.done = false ∧ p.waitClosed = false

instance (p : Promise) : Decidable p.Unresolved := by
  unfold Promise.Unresolved
  exact inferInstance

/-- The message `f` passed through `ws.Read()` without error. -/
def ReadResult.ok (f : Frame) : ReadResult := { data := some f, err := GoError.nil }

/-- The loop iteration took the response path on `f`: the decoded response is
logged, the registry is looked up under the decoded id and, when an entry is
found, `Done` is called on its promise; no event is sent. -/
def handledAsResponse (c : Client) (f : Frame) : Prop :=
  dispatch c f =
    { c with
      logger := c.logger ++ [LogItem.res (decodeResponse f)]
      heap := match Load c.pending (decodeID f) with
        | some p =>
          match f.error with
          | some e => doneAt c.heap p GoValue.nil (GoError.protocol e.Code e.Message)
          | none => doneAt c.heap p (GoValue.raw f.result) GoError.nil
        | none => c.heap }

/-- The loop iteration took the event path on `f`: the decoded event is logged
and sent on the `event` channel; registry and promises are not touched. -/
def handledAsEvent (c : Client) (f : Frame) : Prop :=
  dispatch c f =
    { c with logger := c.logger ++ [LogItem.evt (decodeEvent f)]
             event := c.event ++ [decodeEvent f] }

/-- Whether the loop classifies `f` as an event: the test `id.ID != 0` fails. -/
def isEventFrame (f : Frame) : Bool := decide (decodeID f = 0)

instance (c : Client) (f : Frame) : Decidable (handledAsResponse c f) := by
  unfold handledAsResponse
  exact inferInstance

instance (c : Client) (f : Frame) : Decidable (handledAsEvent c f) := by
  unfold handledAsEvent
  exact inferInstance

/-! ## Sample states and runs -/

/-- A connection on which one `Call` has handed its request (id 1) to `ws.Send`
and has not yet run the next statement. -/
def oneCallSent : Client :=
  (Call.send (New "ws://127.0.0.1:9222") "" "Page.enable" "" GoError.nil GoError.nil
    GoError.nil).1

/-- A connection with one call sent and registered (id 1, promise 0). -/
def oneCallPending : Client := (Call.register oneCallSent 1).1

/-- Scenario D before the read failure: call 1 was sent, registered, answered and
has returned; call 2 is sent and registered (promise 1) and still waits. -/
def oneServedOnePending : Client :=
  exec (New "ws://127.0.0.1:9222")
    [ Step.callSend "" "Page.enable" "" GoError.nil GoError.nil GoError.nil,
      Step.callRegister 1,
      Step.read { data := some { id := some 1, result := some "\x7b\"ok\":true\x7d",
                                 error := none, sessionId := none, method := none,
                                 params := none },
                  err := GoError.nil } GoError.nil,
      Step.callAwait 1 0 GoError.nil false,
      Step.callSend "" "Page.navigate" "" GoError.nil GoError.nil GoError.nil,
      Step.callRegister 2 ]

/-- The message `{"id":1,"result":{"ok":true}}`. -/
def okFrame : Frame :=
  { id := some 1, result := some "\x7b\"ok\":true\x7d", error := none,
    sessionId := none, method := none, params := none }

/-- The message `{"id":1,"error":{"code":-1,"message":"boom"}}`. -/
def boomFrame : Frame :=
  { id := some 1, result := none, error := some { Code := -1, Message := "boom" },
    sessionId := none, method := none, params := none }

/-- The message `{"id":0,"result":{}}`. -/
def zeroIdFrame : Frame :=
  { id := some 0, result := some "\x7b\x7d", error := none,
    sessionId := none, method := none, params := none }

/-- The message `{"method":"Target.attached","params":{"x":1}}`. -/
def attachedFrame : Frame :=
  { id := none, result := none, error := none, sessionId := none,
    method := some "Target.attached", params := some "\x7b\"x\":1\x7d" }

/-- The run of `2 ^ 63` successful `Call` starts. -/
def wrapRun : List Step :=
  List.replicate (2 ^ 63)
    (Step.callSend "" "Page.enable" "" GoError.nil GoError.nil GoError.nil)


/-- A run with a failed marshal, a failed send, a canceled call and a served call. -/
def sampleRun : List Step :=
  [ Step.callSend "" "Page.enable" "" (GoError.other "unsupported type") GoError.nil GoError.nil,
    Step.callSend "" "Page.navigate" "" GoError.nil GoError.nil GoError.nil,
    Step.callRegister 2,
    Step.callAwait 2 0 (GoError.other "context canceled") false,
    Step.callSend "s" "DOM.enable" "" GoError.nil GoError.nil GoError.nil,
    Step.callRegister 3,
    Step.read { data := some { id := some 3, result := some "\x7b\x7d", error := none,
                               sessionId := none, method := none, params := none },
                err := GoError.nil } GoError.nil,
    Step.callAwait 3 1 GoError.nil false,
    Step.callSend "" "Page.reload" "" GoError.nil (GoError.other "broken pipe") GoError.nil ]


/-! ## Promise: lemmas -/

theorem Promise.Done_of_done (p : Promise) (h : p.done = true) (v : GoValue) (e : GoError) :
    p.Done v e = p := by
  simp [Promise.Done, h]

theorem Promise.Done_done (p : Promise) (v : GoValue) (e : GoError) :
    (p.Done v e).done = true := by
  unfold Promise.Done
  by_cases h : p.done = true <;> simp [h]

theorem Promise.Done_idem (p : Promise) (v : GoValue) (e : GoError) (w : GoValue) (e2 : GoError) :
    (p.Done v e).Done w e2 = p.Done v e :=
  Promise.Done_of_done _ (Promise.Done_done p v e) w e2

theorem Promise.DoneAll_of_done (p : Promise) (h : p.done = true)
    (calls : List (GoValue × GoError)) : p.DoneAll calls = p := by
  induction calls with
  | nil => rfl
  | cons c cs ih =>
    show Promise.DoneAll (p.Done c.1 c.2) cs = p
    rw [Promise.Done_of_done p h]
    exact ih

/-- C1: on a promise made by `NewPromise`, after any non-empty sequence of `Done`
calls `(v, e), rest...`, `Result` returns exactly `(v, e)`, waiters are released,
and one more `Done` leaves the promise as it is. -/
theorem promise_first_done_wins (v : GoValue) (e : GoError) (rest : List (GoValue × GoError)) :
    (NewPromise.DoneAll ((v, e) :: rest)).Result = (v, e) ∧
    (NewPromise.DoneAll ((v, e) :: rest)).Wait = true ∧
    ∀ (w : GoValue) (e2 : GoError),
      (NewPromise.DoneAll ((v, e) :: rest)).Done w e2 = NewPromise.DoneAll ((v, e) :: rest) := by
  have h1 : NewPromise.DoneAll ((v, e) :: rest) = NewPromise.Done v e := by
    show Promise.DoneAll (NewPromise.Done v e) rest = NewPromise.Done v e
    exact Promise.DoneAll_of_done _ (Promise.Done_done _ _ _) rest
  rw [h1]
  refine ⟨rfl, rfl, ?_⟩
  intro w e2
  exact Promise.Done_idem _ _ _ _ _

theorem promise_first_done_wins_witness :
    (NewPromise.DoneAll
        [(GoValue.str "ok", GoError.other "err"), (GoValue.nil, GoError.nil)]).Result =
      (GoValue.str "ok", GoError.other "err") :=
  (promise_first_done_wins (GoValue.str "ok") (GoError.other "err")
    [(GoValue.nil, GoError.nil)]).1

/-! ## Promises behind pointers: lemmas -/

theorem Promise.Done_of_not_done (p : Promise) (h : p.done = false) (v : GoValue) (e : GoError) :
    p.Done v e = { waitClosed := true, done := true, val := v, err := e } := by
  simp [Promise.Done, h]

theorem doneAt_getElem? (heap : List Promise) (p q : Nat) (v : GoValue) (e : GoError) :
    (doneAt heap p v e)[q]? =
      if q = p then (heap[q]?).map (fun pr => pr.Done v e) else heap[q]? := by
  unfold doneAt
  by_cases hqp : q = p
  · subst hqp
    rw [if_pos rfl]
    cases hq : heap[q]? with
    | none => simp [hq]
    | some pr =>
      have hlt : q < heap.length := (List.getElem?_eq_some_iff.mp hq).1
      simp only [Option.map_some']
      rw [List.getElem?_set, if_pos rfl, if_pos hlt]
  · rw [if_neg hqp]
    cases hp : heap[p]? with
    | none => rfl
    | some pr =>
      simp only
      rw [List.getElem?_set_ne (Ne.symm hqp)]

theorem doneAt_length (heap : List Promise) (p : Nat) (v : GoValue) (e : GoError) :
    (doneAt heap p v e).length = heap.length := by
  unfold doneAt
  split
  · rw [List.length_set]
  · rfl

/-- The heap after the `Range` of `Close`: every promise the registry points to
has had `Done` called on it, every other promise is untouched. -/
theorem foldl_doneAt_getElem? (v : GoValue) (e : GoError) (m : List (Int × Nat))
    (heap : List Promise) (q : Nat) :
    (m.foldl (fun h kv => doneAt h kv.2 v e) heap)[q]? =
      if q ∈ m.map Prod.snd then (heap[q]?).map (fun pr => pr.Done v e) else heap[q]? := by
  induction m generalizing heap with
  | nil => simp
  | cons kv m ih =>
    rw [List.foldl_cons, ih, doneAt_getElem?]
    by_cases hqp : q = kv.2
    · subst hqp
      have hmem : kv.2 ∈ List.map Prod.snd (kv :: m) := by simp
      rw [if_pos rfl, if_pos hmem]
      cases hq : heap[kv.2]? with
      | none => simp
      | some pr => simp [Promise.Done_idem]
    · rw [if_neg hqp]
      have hiff : q ∈ List.map Prod.snd (kv :: m) ↔ q ∈ List.map Prod.snd m := by
        simp only [List.map_cons, List.mem_cons]
        constructor
        · rintro (h | h)
          · exact absurd h hqp
          · exact h
        · exact Or.inr
      by_cases hm : q ∈ List.map Prod.snd m
      · rw [if_pos hm, if_pos (hiff.mpr hm)]
      · rw [if_neg hm, if_neg (fun h => hm (hiff.mp h))]

/-! ## Registry: lemmas -/

theorem Load_mem (m : List (Int × Nat)) (i : Int) (p : Nat) (h : Load m i = some p) :
    p ∈ m.map Prod.snd := by
  induction m with
  | nil => simp [Load] at h
  | cons kv m ih =>
    obtain ⟨k, v⟩ := kv
    simp only [Load] at h
    by_cases hk : k = i
    · rw [if_pos hk] at h
      simp only [Option.some.injEq] at h
      simp [h]
    · rw [if_neg hk] at h
      simp [ih h]

theorem Load_Delete_self (m : List (Int × Nat)) (i : Int) : Load (Delete m i) i = none := by
  induction m with
  | nil => rfl
  | cons kv m ih =>
    obtain ⟨k, v⟩ := kv
    simp only [Delete]
    by_cases hk : k = i
    · rw [if_pos hk]; exact ih
    · rw [if_neg hk]; simp only [Load]; rw [if_neg hk]; exact ih

theorem Load_Delete_ne (m : List (Int × Nat)) (i j : Int) (h : j ≠ i) :
    Load (Delete m i) j = Load m j := by
  induction m with
  | nil => rfl
  | cons kv m ih =>
    obtain ⟨k, v⟩ := kv
    simp only [Delete]
    by_cases hk : k = i
    · rw [if_pos hk, ih]
      simp only [Load]
      rw [if_neg (by rw [hk]; exact Ne.symm h)]
    · rw [if_neg hk]
      simp only [Load]
      rw [ih]

theorem Load_Store_self (m : List (Int × Nat)) (i : Int) (p : Nat) :
    Load (Store m i p) i = some p := by
  simp [Store, Load]

theorem Load_Store_ne (m : List (Int × Nat)) (i j : Int) (p : Nat) (h : j ≠ i) :
    Load (Store m i p) j = Load m j := by
  simp only [Store, Load]
  rw [if_neg (Ne.symm h), Load_Delete_ne m i j h]

/-! ## Correlation ids: lemmas -/

theorem uint64ToInt_mod (x : Nat) : uint64ToInt (x % 2 ^ 64) = uint64ToInt x := by
  unfold uint64ToInt
  rw [Nat.mod_mod]

theorem uint64ToInt_add_mod (a b : Nat) : uint64ToInt (a % 2 ^ 64 + b) = uint64ToInt (a + b) := by
  rw [← uint64ToInt_mod (a % 2 ^ 64 + b), ← uint64ToInt_mod (a + b)]
  congr 1
  omega

theorem uint64ToInt_small (x : Nat) (h : x < 2 ^ 63) : uint64ToInt x = (x : Int) := by
  have h2 : x % 2 ^ 64 = x := Nat.mod_eq_of_lt (by omega)
  unfold uint64ToInt
  rw [h2, if_pos h]

theorem requestIDs_req (c : Client) (l : List LogItem) (r : Request)
    (h : c.logger = l ++ [LogItem.req r]) :
    requestIDs c = l.filterMap (fun item => match item with
      | LogItem.req r => some r.ID
      | _ => none) ++ [r.ID] := by
  simp only [requestIDs, h, List.filterMap_append, List.filterMap_cons, List.filterMap_nil]

theorem requestIDs_res (c : Client) (l : List LogItem) (r : Response)
    (h : c.logger = l ++ [LogItem.res r]) :
    requestIDs c = l.filterMap (fun item => match item with
      | LogItem.req r => some r.ID
      | _ => none) := by
  simp only [requestIDs, h, List.filterMap_append, List.filterMap_cons, List.filterMap_nil,
    List.append_nil]

theorem requestIDs_evt (c : Client) (l : List LogItem) (e : Event)
    (h : c.logger = l ++ [LogItem.evt e]) :
    requestIDs c = l.filterMap (fun item => match item with
      | LogItem.req r => some r.ID
      | _ => none) := by
  simp only [requestIDs, h, List.filterMap_append, List.filterMap_cons, List.filterMap_nil,
    List.append_nil]

theorem requestIDs_congr (c d : Client) (h : d.logger = c.logger) :
    requestIDs d = requestIDs c := by
  simp only [requestIDs, h]

/-- `Call.await` changes at most the registry, and there only by deleting `id`. -/
theorem Call.await_client (c : Client) (id : Int) (p : Nat) (ctxErr : GoError) (b : Bool) :
    (Call.await c id p ctxErr b).1 = c ∨
    (Call.await c id p ctxErr b).1 = { c with pending := Delete c.pending id } := by
  unfold Call.await
  dsimp only
  split
  · exact Or.inr rfl
  · split
    · split
      · exact Or.inr rfl
      · split <;> exact Or.inr rfl
    · exact Or.inl rfl

theorem dispatch_count (c : Client) (f : Frame) : (dispatch c f).count = c.count := by
  unfold dispatch
  split
  · dsimp only
    split
    · split <;> rfl
    · rfl
  · rfl

theorem dispatch_requestIDs (c : Client) (f : Frame) :
    requestIDs (dispatch c f) = requestIDs c := by
  unfold dispatch
  split
  · dsimp only
    split
    · split <;> exact requestIDs_res _ _ _ rfl
    · exact requestIDs_res _ _ _ rfl
  · exact requestIDs_evt _ _ _ rfl

theorem step_count (c : Client) (s : Step) :
    (step c s).count = if s.isCall then (c.count + 1) % 2 ^ 64 else c.count := by
  cases s with
  | callSend s m p me se ce =>
    simp only [step, Step.isCall, Call.send, atomicAddUint64]
    split
    · rfl
    · split <;> rfl
  | callRegister id => rfl
  | callAwait id p ctxErr preferCtx =>
    simp only [step, Step.isCall]
    rcases Call.await_client c id p ctxErr preferCtx with h | h <;> rw [h] <;> rfl
  | read r ce =>
    simp only [step, Step.isCall, consumeMessages]
    split
    · rfl
    · split
      · rfl
      · split
        · rfl
        · exact dispatch_count _ _
  | close reason ce => rfl

theorem step_requestIDs (c : Client) (s : Step) :
    requestIDs (step c s) =
      requestIDs c ++ (if s.isCall then [uint64ToInt (c.count + 1)] else []) := by
  cases s with
  | callSend s m p me se ce =>
    simp only [step, Step.isCall, Call.send, atomicAddUint64, if_true]
    split
    · rw [requestIDs_req _ _ _ rfl, uint64ToInt_mod]; rfl
    · split
      · rw [requestIDs_req _ _ _ rfl, uint64ToInt_mod]; rfl
      · rw [requestIDs_req _ _ _ rfl, uint64ToInt_mod]; rfl
  | callRegister id =>
    simp only [step, Step.isCall, Bool.false_eq_true, if_false, List.append_nil]
    exact requestIDs_congr _ _ rfl
  | callAwait id p ctxErr preferCtx =>
    simp only [step, Step.isCall, Bool.false_eq_true, if_false, List.append_nil]
    rcases Call.await_client c id p ctxErr preferCtx with h | h <;> rw [h]
    exact requestIDs_congr _ _ rfl
  | read r ce =>
    simp only [step, Step.isCall, consumeMessages, Bool.false_eq_true, if_false, List.append_nil]
    split
    · trivial
    · split
      · exact requestIDs_congr _ _ rfl
      · split
        · exact requestIDs_congr _ _ rfl
        · exact dispatch_requestIDs _ _
  | close reason ce =>
    simp only [step, Step.isCall, Bool.false_eq_true, if_false, List.append_nil]
    exact requestIDs_congr _ _ rfl

/-- The ids built along any run: the `k`-th `Call` started from counter value
`c.count` carries `int(c.count + k)` (as a 64-bit conversion). -/
theorem exec_requestIDs (steps : List Step) (c : Client) :
    requestIDs (exec c steps) =
      requestIDs c ++
        (List.range (steps.countP Step.isCall)).map (fun k => uint64ToInt (c.count + (k + 1))) := by
  induction steps generalizing c with
  | nil => simp [exec]
  | cons s ss ih =>
    have hexec : exec c (s :: ss) = exec (step c s) ss := rfl
    rw [hexec, ih (step c s), step_requestIDs, step_count]
    cases hs : s.isCall
    · simp [List.countP_cons, hs]
    · simp only [List.countP_cons, hs, if_true, List.append_assoc]
      congr 1
      rw [List.range_succ_eq_map]
      simp only [List.map_cons, List.map_map, List.singleton_append]
      congr 1
      apply List.map_congr_left
      intro k _
      simp only [Function.comp]
      rw [uint64ToInt_add_mod]
      congr 1
      omega

theorem uint64ToInt_two_pow_63 : uint64ToInt (2 ^ 63) = -(2 ^ 63 : Int) := by decide

theorem ids_not_increasing (n : Nat) (hn : 2 ^ 63 ≤ n) :
    ¬ ((List.range n).map (fun k => uint64ToInt (0 + (k + 1)))).Pairwise (· < ·) := by
  intro h
  rw [List.pairwise_map] at h
  have h0 : 0 < (List.range n).length := by rw [List.length_range]; omega
  have h1 : 2 ^ 63 - 1 < (List.range n).length := by rw [List.length_range]; omega
  have h2 := (List.pairwise_iff_getElem.mp h) 0 (2 ^ 63 - 1) h0 h1 (by omega)
  rw [List.getElem_range, List.getElem_range] at h2
  have e1 : uint64ToInt (0 + (0 + 1)) = 1 := by decide
  have e2 : uint64ToInt (0 + (2 ^ 63 - 1 + 1)) = -(2 ^ 63 : Int) := by decide
  rw [e1, e2] at h2
  omega

theorem wrapRun_calls : wrapRun.countP Step.isCall = 2 ^ 63 := by
  unfold wrapRun
  rw [List.countP_replicate]
  rfl

/-- C2 (as stated) fails: on a fresh client the `2 ^ 63`-th `Call` carries the id
`-(2 ^ 63)`, so the ids of a run of `2 ^ 63` calls are not strictly increasing. -/
theorem call_ids_wrap :
    (requestIDs (exec (New "") wrapRun))[2 ^ 63 - 1]? = some (-(2 ^ 63 : Int)) ∧
    ¬ (requestIDs (exec (New "") wrapRun)).Pairwise (· < ·) := by
  have h : requestIDs (exec (New "") wrapRun) =
      (List.range (2 ^ 63)).map (fun k => uint64ToInt (0 + (k + 1))) := by
    have e1 : requestIDs (New "") = [] := rfl
    have e2 : (New "").count = 0 := rfl
    rw [exec_requestIDs, wrapRun_calls, e1, e2, List.nil_append]
  rw [h]
  refine ⟨?_, ids_not_increasing _ (Nat.le_refl _)⟩
  rw [List.getElem?_map, List.getElem?_range (by omega)]
  show some (uint64ToInt (0 + (2 ^ 63 - 1 + 1))) = some (-(2 ^ 63 : Int))
  exact congrArg some (by decide)

/-- C2 (amended): in every run from a fresh client that starts fewer than `2 ^ 63`
calls, the ids put into the requests are `1, 2, ..., n` in issuance order (the
`n`-th `Call` carries id `n`), hence strictly increasing and pairwise distinct,
whatever the outcome of the earlier calls and whatever else is interleaved. -/
theorem call_ids_sequential (url : String) (steps : List Step)
    (h : steps.countP Step.isCall < 2 ^ 63) :
    requestIDs (exec (New url) steps) =
      (List.range (steps.countP Step.isCall)).map (fun (k : Nat) => (k : Int) + 1) ∧
    (requestIDs (exec (New url) steps)).Pairwise (· < ·) ∧
    (requestIDs (exec (New url) steps)).Nodup := by
  have h1 : requestIDs (exec (New url) steps) =
      (List.range (steps.countP Step.isCall)).map (fun (k : Nat) => (k : Int) + 1) := by
    have e1 : requestIDs (New url) = [] := rfl
    have e2 : (New url).count = 0 := rfl
    rw [exec_requestIDs, e1, e2, List.nil_append]
    apply List.map_congr_left
    intro k hk
    rw [List.mem_range] at hk
    show uint64ToInt (0 + (k + 1)) = (k : Int) + 1
    rw [uint64ToInt_small _ (by omega)]
    push_cast
    omega
  have h2 : (requestIDs (exec (New url) steps)).Pairwise (· < ·) := by
    rw [h1, List.pairwise_map]
    refine (List.pairwise_lt_range _).imp ?_
    intro a b hab
    omega
  refine ⟨h1, h2, ?_⟩
  exact h2.imp (fun hab => ne_of_lt hab)

theorem call_ids_sequential_witness :
    sampleRun.countP Step.isCall < 2 ^ 63 ∧
    requestIDs (exec (New "ws://127.0.0.1:9222") sampleRun) = [1, 2, 3, 4] ∧
    (requestIDs (exec (New "ws://127.0.0.1:9222") sampleRun)).Pairwise (· < ·) := by
  have h := call_ids_sequential "ws://127.0.0.1:9222" sampleRun (by decide)
  exact ⟨by decide, h.1.trans (by decide), h.2.1⟩

/-! ## Call and the dispatch loop: lemmas -/

/-- The `select` of `Call` when the context has not ended and the promise is resolved. -/
theorem Call.await_of_resolved (c : Client) (i : Int) (p : Nat) (b : Bool) (pr : Promise)
    (h : c.heap[p]? = some pr) (hw : pr.waitClosed = true) :
    Call.await c i p GoError.nil b =
      ({ c with pending := Delete c.pending i },
        if pr.err ≠ GoError.nil then CallOutcome.returned none pr.err
        else match pr.val with
          | GoValue.raw m => CallOutcome.returned m GoError.nil
          | _ => CallOutcome.panicked) := by
  have hg : c.heap.getD p NewPromise = pr := by
    rw [List.getD_eq_getElem?_getD, h]; rfl
  unfold Call.await
  simp only [hg, Promise.Wait, hw, Promise.Result, ne_eq, not_true_eq_false, decide_False,
    Bool.false_and, Bool.false_eq_true, if_false, if_true]
  split
  · rfl
  · split <;> rfl

/-- The `select` of `Call` when the context has ended and the promise is unresolved. -/
theorem Call.await_of_ctx (c : Client) (i : Int) (p : Nat) (b : Bool) (pr : Promise)
    (ctxErr : GoError) (h : c.heap[p]? = some pr) (hw : pr.waitClosed = false)
    (hctx : ctxErr ≠ GoError.nil) :
    Call.await c i p ctxErr b =
      ({ c with pending := Delete c.pending i }, CallOutcome.returned none ctxErr) := by
  have hg : c.heap.getD p NewPromise = pr := by
    rw [List.getD_eq_getElem?_getD, h]; rfl
  unfold Call.await
  simp only [hg, Promise.Wait, hw, ne_eq, hctx, not_false_eq_true, decide_True, Bool.not_false,
    Bool.true_or, Bool.and_self, if_true]

/-- The loop iteration on a message whose decoded id is non-zero and registered. -/
theorem dispatch_of_pending (c : Client) (f : Frame) (p : Nat)
    (hid : decodeID f ≠ 0) (hp : Load c.pending (decodeID f) = some p) :
    dispatch c f =
      { c with
        logger := c.logger ++ [LogItem.res (decodeResponse f)]
        heap := match f.error with
          | some e => doneAt c.heap p GoValue.nil (GoError.protocol e.Code e.Message)
          | none => doneAt c.heap p (GoValue.raw f.result) GoError.nil } := by
  unfold dispatch
  rw [if_pos hid]
  simp only [hp, decodeResponse]
  cases f.error <;> rfl

/-- The loop iteration on a message whose decoded id is non-zero and not registered. -/
theorem dispatch_of_not_pending (c : Client) (f : Frame)
    (hid : decodeID f ≠ 0) (hp : Load c.pending (decodeID f) = none) :
    dispatch c f = { c with logger := c.logger ++ [LogItem.res (decodeResponse f)] } := by
  unfold dispatch
  rw [if_pos hid]
  simp only [hp]

/-- The loop iteration on a message whose decoded id is zero. -/
theorem dispatch_of_zero (c : Client) (f : Frame) (hid : decodeID f = 0) :
    dispatch c f =
      { c with logger := c.logger ++ [LogItem.evt (decodeEvent f)]
               event := c.event ++ [decodeEvent f] } := by
  unfold dispatch
  rw [if_neg (by simp [hid])]

theorem decodeID_of_id (f : Frame) (i : Int) (h : f.id = some i) : decodeID f = i := by
  simp [decodeID, h]

/-- C3: a Response frame for a registered id `i` (non-zero, as every id the loop
decodes as a response) whose future is unresolved resolves that future: with the
protocol error when the frame carries an error descriptor, and then the `Call`
waiting on `i` returns `(nil, that error)`; with the result payload otherwise, and
then `Call` returns `(payload, nil)`. Every other future, the registry and the
event stream are unchanged. -/
theorem response_resolves_future (c : Client) (f : Frame) (i : Int) (p : Nat) (pr : Promise)
    (hid : f.id = some i) (hres : i ≠ 0) (hp : Load c.pending i = some p)
    (hpr : c.heap[p]? = some pr) (hun : pr.Unresolved) :
    (∀ e, f.error = some e →
      (dispatch c f).heap[p]? = some { waitClosed := true, done := true, val := GoValue.nil,
                                       err := GoError.protocol e.Code e.Message } ∧
      ∀ b, (Call.await (dispatch c f) i p GoError.nil b).2 =
        CallOutcome.returned none (GoError.protocol e.Code e.Message)) ∧
    (f.error = none →
      (dispatch c f).heap[p]? = some { waitClosed := true, done := true,
                                       val := GoValue.raw f.result, err := GoError.nil } ∧
      ∀ b, (Call.await (dispatch c f) i p GoError.nil b).2 =
        CallOutcome.returned f.result GoError.nil) ∧
    (∀ q, q ≠ p → (dispatch c f).heap[q]? = c.heap[q]?) ∧
    (dispatch c f).pending = c.pending ∧
    (dispatch c f).event = c.event := by
  have hdec : decodeID f = i := decodeID_of_id f i hid
  have hd := dispatch_of_pending c f p (by rw [hdec]; exact hres) (by rw [hdec]; exact hp)
  rw [hd]
  refine ⟨?_, ?_, ?_, rfl, rfl⟩
  · intro e he
    have hh : ({ c with
        logger := c.logger ++ [LogItem.res (decodeResponse f)]
        heap := match f.error with
          | some e => doneAt c.heap p GoValue.nil (GoError.protocol e.Code e.Message)
          | none => doneAt c.heap p (GoValue.raw f.result) GoError.nil } : Client).heap[p]? =
        some { waitClosed := true, done := true, val := GoValue.nil,
               err := GoError.protocol e.Code e.Message } := by
      simp only [he]
      rw [doneAt_getElem?, if_pos rfl, hpr, Option.map_some', Promise.Done_of_not_done _ hun.1]
    refine ⟨hh, fun b => ?_⟩
    rw [Call.await_of_resolved _ i p b _ hh rfl]
    simp
  · intro he
    have hh : ({ c with
        logger := c.logger ++ [LogItem.res (decodeResponse f)]
        heap := match f.error with
          | some e => doneAt c.heap p GoValue.nil (GoError.protocol e.Code e.Message)
          | none => doneAt c.heap p (GoValue.raw f.result) GoError.nil } : Client).heap[p]? =
        some { waitClosed := true, done := true, val := GoValue.raw f.result,
               err := GoError.nil } := by
      simp only [he]
      rw [doneAt_getElem?, if_pos rfl, hpr, Option.map_some', Promise.Done_of_not_done _ hun.1]
    refine ⟨hh, fun b => ?_⟩
    rw [Call.await_of_resolved _ i p b _ hh rfl]
    simp
  · intro q hq
    show (match f.error with
          | some e => doneAt c.heap p GoValue.nil (GoError.protocol e.Code e.Message)
          | none => doneAt c.heap p (GoValue.raw f.result) GoError.nil)[q]? = c.heap[q]?
    cases f.error <;> simp only [doneAt_getElem?, if_neg hq]

theorem response_resolves_future_witness :
    Load oneCallPending.pending 1 = some 0 ∧
    oneCallPending.heap[0]? = some NewPromise ∧
    (Call.await (dispatch oneCallPending boomFrame) 1 0 GoError.nil false).2 =
      CallOutcome.returned none (GoError.protocol (-1) "boom") ∧
    (Call.await (dispatch oneCallPending okFrame) 1 0 GoError.nil false).2 =
      CallOutcome.returned (some "\x7b\"ok\":true\x7d") GoError.nil :=
  ⟨by decide, by decide,
    ((response_resolves_future oneCallPending boomFrame 1 0 NewPromise rfl (by decide)
      (by decide) (by decide) (by decide)).1 { Code := -1, Message := "boom" } rfl).2 false,
    ((response_resolves_future oneCallPending okFrame 1 0 NewPromise rfl (by decide)
      (by decide) (by decide) (by decide)).2.1 rfl).2 false⟩

/-! ## Close: lemmas -/

/-- `Close` resolves every unresolved promise the registry points to. -/
theorem Close_heap_unresolved (c : Client) (reason e : GoError) (i : Int) (p : Nat)
    (pr : Promise) (hp : Load c.pending i = some p) (hpr : c.heap[p]? = some pr)
    (hun : pr.done = false) :
    (Close c reason e).1.heap[p]? =
      some { waitClosed := true, done := true, val := GoValue.nil,
             err := GoError.connClosed reason } := by
  show (c.pending.foldl
    (fun h kv => doneAt h kv.2 GoValue.nil (GoError.connClosed reason)) c.heap)[p]? = _
  rw [foldl_doneAt_getElem?, if_pos (Load_mem _ _ _ hp), hpr, Option.map_some',
    Promise.Done_of_not_done _ hun]

/-- `Close` leaves every resolved promise as it is. -/
theorem Close_heap_resolved (c : Client) (reason e : GoError) (q : Nat) (pr : Promise)
    (hpr : c.heap[q]? = some pr) (hd : pr.done = true) :
    (Close c reason e).1.heap[q]? = some pr := by
  show (c.pending.foldl
    (fun h kv => doneAt h kv.2 GoValue.nil (GoError.connClosed reason)) c.heap)[q]? = _
  rw [foldl_doneAt_getElem?, hpr, Option.map_some', Promise.Done_of_done _ hd]
  split <;> rfl

/-- A call waiting on a promise that `Close` resolved returns the connection-closed error. -/
theorem Close_await (c : Client) (reason e : GoError) (i : Int) (p : Nat)
    (pr : Promise) (hp : Load c.pending i = some p) (hpr : c.heap[p]? = some pr)
    (hun : pr.done = false) (b : Bool) :
    (Call.await (Close c reason e).1 i p GoError.nil b).2 =
      CallOutcome.returned none (GoError.connClosed reason) := by
  rw [Call.await_of_resolved _ i p b _ (Close_heap_unresolved c reason e i p pr hp hpr hun) rfl]
  simp

/-- C4 (as stated) fails: a call still in the registry whose future a Response has
already resolved is not failed by `Close`; it returns its result with no error. -/
theorem close_keeps_resolved_result :
    Load (dispatch oneCallPending okFrame).pending 1 = some 0 ∧
    (Call.await (Close (dispatch oneCallPending okFrame) (GoError.other "bye") GoError.nil).1
        1 0 GoError.nil false).2 =
      CallOutcome.returned (some "\x7b\"ok\":true\x7d") GoError.nil := by
  decide

/-- C4 (amended): `Close(reason)` resolves the future of every call in the registry
whose future is still unresolved with `(nil, connection-closed wrapping reason)`,
and such a call, its context not ended, returns that error; a future that is
already resolved keeps its resolution; the registry is not changed; the transport
is closed once and `Close` returns exactly what the transport's close returned. -/
theorem close_fails_unresolved_pending (c : Client) (reason wsCloseErr : GoError) :
    (∀ i p pr, Load c.pending i = some p → c.heap[p]? = some pr → pr.Unresolved →
      (Close c reason wsCloseErr).1.heap[p]? =
        some { waitClosed := true, done := true, val := GoValue.nil,
               err := GoError.connClosed reason } ∧
      ∀ b, (Call.await (Close c reason wsCloseErr).1 i p GoError.nil b).2 =
        CallOutcome.returned none (GoError.connClosed reason)) ∧
    (∀ (q : Nat) (pr : Promise), c.heap[q]? = some pr → pr.done = true →
      (Close c reason wsCloseErr).1.heap[q]? = some pr) ∧
    (Close c reason wsCloseErr).1.pending = c.pending ∧
    (Close c reason wsCloseErr).1.ws.closeCalls = c.ws.closeCalls + 1 ∧
    (Close c reason wsCloseErr).2 = wsCloseErr :=
  ⟨fun i p pr hp hpr hun =>
      ⟨Close_heap_unresolved c reason wsCloseErr i p pr hp hpr hun.1,
       Close_await c reason wsCloseErr i p pr hp hpr hun.1⟩,
    fun q pr hpr hd => Close_heap_resolved c reason wsCloseErr q pr hpr hd,
    rfl, rfl, rfl⟩

theorem close_fails_unresolved_pending_witness :
    Load oneCallPending.pending 1 = some 0 ∧
    oneCallPending.heap[0]? = some NewPromise ∧
    NewPromise.Unresolved ∧
    (Call.await (Close oneCallPending (GoError.other "bye") (GoError.other "already closed")).1
        1 0 GoError.nil false).2 =
      CallOutcome.returned none (GoError.connClosed (GoError.other "bye")) ∧
    (Close oneCallPending (GoError.other "bye") (GoError.other "already closed")).2 =
      GoError.other "already closed" :=
  ⟨by decide, by decide, by decide,
    ((close_fails_unresolved_pending oneCallPending (GoError.other "bye")
      (GoError.other "already closed")).1 1 0 NewPromise (by decide) (by decide)
      (by decide)).2 false,
    (close_fails_unresolved_pending oneCallPending (GoError.other "bye")
      (GoError.other "already closed")).2.2.2.2⟩

/-- C5: when the transport's send fails with `sendErr`, `Call` runs `Close(sendErr)`:
every unresolved future in the registry becomes resolved with the connection-closed
error wrapping `sendErr` and the transport is closed; `Call` returns
`(nil, connection-closed wrapping sendErr)` there and then, and the registry is
left as it was, with no entry added for the new id. -/
theorem call_send_failure (c : Client) (sessionID method params : String)
    (sendErr wsCloseErr : GoError) (hs : sendErr ≠ GoError.nil) :
    (Call.send c sessionID method params GoError.nil sendErr wsCloseErr).2.2 =
      some (none, GoError.connClosed sendErr) ∧
    (Call.send c sessionID method params GoError.nil sendErr wsCloseErr).1 =
      (Close { c with
          count := atomicAddUint64 c.count 1
          logger := c.logger ++ [LogItem.req
            (Call.send c sessionID method params GoError.nil sendErr wsCloseErr).2.1]
          ws := { c.ws with sent := c.ws.sent ++
            [(Call.send c sessionID method params GoError.nil sendErr wsCloseErr).2.1] } }
        sendErr wsCloseErr).1 ∧
    (∀ i p pr, Load c.pending i = some p → c.heap[p]? = some pr → pr.Unresolved →
      (Call.send c sessionID method params GoError.nil sendErr wsCloseErr).1.heap[p]? =
        some { waitClosed := true, done := true, val := GoValue.nil,
               err := GoError.connClosed sendErr }) ∧
    (Call.send c sessionID method params GoError.nil sendErr wsCloseErr).1.ws.closeCalls =
      c.ws.closeCalls + 1 ∧
    (Call.send c sessionID method params GoError.nil sendErr wsCloseErr).1.pending = c.pending ∧
    (Call.send c sessionID method params GoError.nil sendErr wsCloseErr).1.heap.length =
      c.heap.length := by
  have h : Call.send c sessionID method params GoError.nil sendErr wsCloseErr =
      ((Close { c with
          count := atomicAddUint64 c.count 1
          logger := c.logger ++ [LogItem.req
            { ID := uint64ToInt (atomicAddUint64 c.count 1), SessionID := sessionID,
              Method := method, Params := params }]
          ws := { c.ws with sent := c.ws.sent ++
            [{ ID := uint64ToInt (atomicAddUint64 c.count 1), SessionID := sessionID,
               Method := method, Params := params }] } }
        sendErr wsCloseErr).1,
       { ID := uint64ToInt (atomicAddUint64 c.count 1), SessionID := sessionID,
         Method := method, Params := params },
       some (none, GoError.connClosed sendErr)) := by
    unfold Call.send
    simp only [ne_eq, not_true_eq_false, if_false, hs, not_false_eq_true, if_true]
  rw [h]
  refine ⟨rfl, rfl, ?_, rfl, rfl, ?_⟩
  · intro i p pr hp hpr hun
    exact Close_heap_unresolved _ sendErr wsCloseErr i p pr hp hpr hun.1
  · show (c.pending.foldl
      (fun h kv => doneAt h kv.2 GoValue.nil (GoError.connClosed sendErr)) c.heap).length = _
    generalize c.heap = heap
    induction c.pending generalizing heap with
    | nil => rfl
    | cons kv m ih => rw [List.foldl_cons, ih, doneAt_length]

theorem call_send_failure_witness :
    GoError.other "broken pipe" ≠ GoError.nil ∧
    (Call.send oneCallPending "" "Page.reload" "" GoError.nil (GoError.other "broken pipe")
        GoError.nil).2.2 =
      some (none, GoError.connClosed (GoError.other "broken pipe")) ∧
    (Call.send oneCallPending "" "Page.reload" "" GoError.nil (GoError.other "broken pipe")
        GoError.nil).1.pending = [(1, 0)] ∧
    (Call.send oneCallPending "" "Page.reload" "" GoError.nil (GoError.other "broken pipe")
        GoError.nil).1.heap[0]? =
      some { waitClosed := true, done := true, val := GoValue.nil,
             err := GoError.connClosed (GoError.other "broken pipe") } :=
  ⟨by decide,
    (call_send_failure oneCallPending "" "Page.reload" "" (GoError.other "broken pipe")
      GoError.nil (by decide)).1,
    (call_send_failure oneCallPending "" "Page.reload" "" (GoError.other "broken pipe")
      GoError.nil (by decide)).2.2.2.2.1.trans (by decide),
    (call_send_failure oneCallPending "" "Page.reload" "" (GoError.other "broken pipe")
      GoError.nil (by decide)).2.2.1 1 0 NewPromise (by decide) (by decide) (by decide)⟩

/-! ## Classification of incoming messages -/

theorem decodeID_ne_zero_iff (f : Frame) : decodeID f ≠ 0 ↔ ∃ i, f.id = some i ∧ i ≠ 0 := by
  unfold decodeID
  cases h : f.id with
  | none => simp
  | some i => simp

theorem decodeID_eq_zero_iff (f : Frame) : decodeID f = 0 ↔ f.id = none ∨ f.id = some 0 := by
  unfold decodeID
  cases h : f.id with
  | none => simp
  | some i => simp

theorem handledAsResponse_of_ne_zero (c : Client) (f : Frame) (h : decodeID f ≠ 0) :
    handledAsResponse c f := by
  unfold handledAsResponse
  cases hl : Load c.pending (decodeID f) with
  | none => rw [dispatch_of_not_pending c f h hl]
  | some p => rw [dispatch_of_pending c f p h hl]

theorem handledAsEvent_of_zero (c : Client) (f : Frame) (h : decodeID f = 0) :
    handledAsEvent c f :=
  dispatch_of_zero c f h

/-- The two paths of the loop differ in what they do to the event stream. -/
theorem not_handledAsResponse_and_handledAsEvent (c : Client) (f : Frame) :
    ¬ (handledAsResponse c f ∧ handledAsEvent c f) := by
  rintro ⟨h1, h2⟩
  unfold handledAsResponse at h1
  unfold handledAsEvent at h2
  have h3 := congrArg Client.event (h1.symm.trans h2)
  have h4 := congrArg List.length h3
  simp at h4

/-- C6 (as stated) fails: the message `{"id":0,"result":{}}` contains an `id`
field, yet the loop takes the event path on it: an event is sent on the event
stream and the response path is not taken. -/
theorem zero_id_frame_is_event :
    zeroIdFrame.id = some 0 ∧
    handledAsEvent oneCallPending zeroIdFrame ∧
    ¬ handledAsResponse oneCallPending zeroIdFrame ∧
    (dispatch oneCallPending zeroIdFrame).event =
      [{ SessionID := "", Method := "", Params := none }] := by
  decide

/-- C6 (amended): the loop takes the response path (registry lookup, no event
sent) exactly on the messages whose `id` field is present with a non-zero value,
and the event path (event sent, no registry lookup) exactly on the messages whose
`id` field is absent or zero; the decoded id being non-zero is the sole
discriminant. -/
theorem classify_by_nonzero_id (c : Client) (f : Frame) :
    (handledAsResponse c f ↔ ∃ i, f.id = some i ∧ i ≠ 0) ∧
    (handledAsEvent c f ↔ f.id = none ∨ f.id = some 0) := by
  rw [← decodeID_ne_zero_iff, ← decodeID_eq_zero_iff]
  by_cases h : decodeID f = 0
  · have he := handledAsEvent_of_zero c f h
    refine ⟨⟨fun hr => ?_, fun hn => absurd h hn⟩, fun _ => h, fun _ => he⟩
    exact absurd ⟨hr, he⟩ (not_handledAsResponse_and_handledAsEvent c f)
  · have hr := handledAsResponse_of_ne_zero c f h
    refine ⟨⟨fun _ => h, fun _ => hr⟩, fun he => ?_, fun hz => absurd hz h⟩
    exact absurd ⟨hr, he⟩ (not_handledAsResponse_and_handledAsEvent c f)

theorem classify_by_nonzero_id_witness :
    handledAsResponse oneCallPending okFrame ∧
    handledAsEvent oneCallPending attachedFrame ∧
    (dispatch oneCallPending attachedFrame).event =
      [{ SessionID := "", Method := "Target.attached", Params := some "\x7b\"x\":1\x7d" }] ∧
    (dispatch oneCallPending attachedFrame).heap = oneCallPending.heap :=
  ⟨(classify_by_nonzero_id oneCallPending okFrame).1.mpr ⟨1, rfl, by decide⟩,
    (classify_by_nonzero_id oneCallPending attachedFrame).2.mpr (Or.inl rfl),
    by decide, by decide⟩

/-! ## Cancellation -/

/-- C7: when the context of the call with id `i` ends while its future is
unresolved, `Call` returns `(nil, ctx.Err())` and removes the entry of `i` from
the registry, leaving the entries of all other ids and all futures as they were;
from then on, in any state in which `i` has no entry, a Response frame for `i`
(non-zero id) is discarded: the loop only logs it, resolving no future, changing
no registry entry, sending no event, and goes on reading. -/
theorem canceled_call_discards_response (c : Client) (f : Frame) (i : Int) (p : Nat)
    (pr : Promise) (ctxErr : GoError) (b : Bool)
    (hctx : ctxErr ≠ GoError.nil) (hpr : c.heap[p]? = some pr) (hun : pr.Unresolved)
    (hid : f.id = some i) (hres : i ≠ 0) :
    (Call.await c i p ctxErr b).2 = CallOutcome.returned none ctxErr ∧
    (Call.await c i p ctxErr b).1 = { c with pending := Delete c.pending i } ∧
    Load (Call.await c i p ctxErr b).1.pending i = none ∧
    (∀ j, j ≠ i → Load (Call.await c i p ctxErr b).1.pending j = Load c.pending j) ∧
    (∀ (d : Client) (ce : GoError), Load d.pending i = none →
      dispatch d f = { d with logger := d.logger ++ [LogItem.res (decodeResponse f)] } ∧
      consumeMessages ce d [ReadResult.ok f] =
        ({ d with logger := d.logger ++ [LogItem.res (decodeResponse f)] },
          LoopStatus.reading)) := by
  have ha := Call.await_of_ctx c i p b pr ctxErr hpr hun.2 hctx
  have hdec : decodeID f = i := decodeID_of_id f i hid
  rw [ha]
  refine ⟨rfl, rfl, Load_Delete_self _ _, fun j hj => Load_Delete_ne _ _ _ hj, ?_⟩
  intro d ce hd
  have hdisp := dispatch_of_not_pending d f (by rw [hdec]; exact hres) (by rw [hdec]; exact hd)
  refine ⟨hdisp, ?_⟩
  simp only [consumeMessages, ReadResult.ok, ne_eq, not_true_eq_false, if_false, hdisp]

theorem canceled_call_discards_response_witness :
    GoError.other "context canceled" ≠ GoError.nil ∧
    oneCallPending.heap[0]? = some NewPromise ∧
    (Call.await oneCallPending 1 0 (GoError.other "context canceled") false).2 =
      CallOutcome.returned none (GoError.other "context canceled") ∧
    (Call.await oneCallPending 1 0 (GoError.other "context canceled") false).1.pending = [] ∧
    (dispatch (Call.await oneCallPending 1 0 (GoError.other "context canceled") false).1
        okFrame).heap = [NewPromise] ∧
    (dispatch (Call.await oneCallPending 1 0 (GoError.other "context canceled") false).1
        okFrame).event = [] := by
  have h := canceled_call_discards_response oneCallPending okFrame 1 0 NewPromise
    (GoError.other "context canceled") false (by decide) (by decide) (by decide) rfl (by decide)
  have h5 := (h.2.2.2.2 (Call.await oneCallPending 1 0 (GoError.other "context canceled")
    false).1 GoError.nil h.2.2.1).1
  refine ⟨by decide, by decide, h.1, by decide, ?_, ?_⟩
  · rw [h5]; decide
  · rw [h5]; decide

/-! ## Wire order -/

theorem consumeMessages_ok (ce : GoError) (fs : List Frame) (c : Client) :
    consumeMessages ce c (fs.map ReadResult.ok) = (fs.foldl dispatch c, LoopStatus.reading) := by
  induction fs generalizing c with
  | nil => rfl
  | cons f fs ih =>
    simp only [List.map_cons, consumeMessages, ReadResult.ok, ne_eq, not_true_eq_false, if_false,
      List.foldl_cons]
    exact ih (dispatch c f)

theorem dispatch_event (c : Client) (f : Frame) :
    (dispatch c f).event = c.event ++ (if isEventFrame f then [decodeEvent f] else []) := by
  unfold isEventFrame
  by_cases h : decodeID f = 0
  · rw [dispatch_of_zero c f h]
    simp [h]
  · have hr := handledAsResponse_of_ne_zero c f h
    unfold handledAsResponse at hr
    rw [hr]
    simp [h]

theorem foldl_dispatch_event (fs : List Frame) (c : Client) :
    (fs.foldl dispatch c).event = c.event ++ (fs.filter isEventFrame).map decodeEvent := by
  induction fs generalizing c with
  | nil => simp
  | cons f fs ih =>
    rw [List.foldl_cons, ih, dispatch_event]
    cases h : isEventFrame f <;> simp [List.filter_cons, h]

/-- C8: on any finite sequence of well-formed frames the loop stays in its read
loop and the events it hands to the event stream are, in the same order, the
decoded frames it classifies as events. Each frame takes effect at its position:
the state after the frames up to and including `f` is one loop iteration on the
state after the frames before `f`; when `f` is dispatched, exactly the events
before it on the wire have been accepted; an event frame changes no future, and
a response frame is resolved by that iteration and sends no event. -/
theorem events_in_wire_order (ce : GoError) (c : Client) (fs : List Frame) :
    (consumeMessages ce c (fs.map ReadResult.ok)).2 = LoopStatus.reading ∧
    (consumeMessages ce c (fs.map ReadResult.ok)).1.event =
      c.event ++ (fs.filter isEventFrame).map decodeEvent ∧
    ∀ (pre : List Frame) (f : Frame) (post : List Frame), fs = pre ++ f :: post →
      (consumeMessages ce c ((pre ++ [f]).map ReadResult.ok)).1 =
        dispatch (consumeMessages ce c (pre.map ReadResult.ok)).1 f ∧
      (consumeMessages ce c (fs.map ReadResult.ok)).1 =
        (consumeMessages ce (dispatch (consumeMessages ce c (pre.map ReadResult.ok)).1 f)
          (post.map ReadResult.ok)).1 ∧
      (consumeMessages ce c (pre.map ReadResult.ok)).1.event =
        c.event ++ (pre.filter isEventFrame).map decodeEvent ∧
      (∀ e ∈ pre, isEventFrame e = true →
        decodeEvent e ∈ (consumeMessages ce c (pre.map ReadResult.ok)).1.event) ∧
      (isEventFrame f = true →
        (dispatch (consumeMessages ce c (pre.map ReadResult.ok)).1 f).heap =
          (consumeMessages ce c (pre.map ReadResult.ok)).1.heap ∧
        (dispatch (consumeMessages ce c (pre.map ReadResult.ok)).1 f).event =
          (consumeMessages ce c (pre.map ReadResult.ok)).1.event ++ [decodeEvent f]) ∧
      (isEventFrame f = false →
        handledAsResponse (consumeMessages ce c (pre.map ReadResult.ok)).1 f ∧
        (dispatch (consumeMessages ce c (pre.map ReadResult.ok)).1 f).event =
          (consumeMessages ce c (pre.map ReadResult.ok)).1.event) := by
  simp only [consumeMessages_ok]
  refine ⟨trivial, foldl_dispatch_event fs c, ?_⟩
  intro pre f post hfs
  refine ⟨?_, ?_, foldl_dispatch_event pre c, ?_, ?_, ?_⟩
  · rw [List.foldl_append]; rfl
  · rw [hfs, List.foldl_append]; rfl
  · intro e he hev
    rw [foldl_dispatch_event]
    apply List.mem_append_right
    exact List.mem_map_of_mem _ (List.mem_filter.mpr ⟨he, hev⟩)
  · intro hev
    have h0 : decodeID f = 0 := by simpa [isEventFrame] using hev
    rw [dispatch_of_zero _ f h0]
    exact ⟨rfl, rfl⟩
  · intro hev
    have h0 : decodeID f ≠ 0 := by simpa [isEventFrame] using hev
    refine ⟨handledAsResponse_of_ne_zero _ f h0, ?_⟩
    rw [dispatch_event, hev]
    simp

/-! ## Read failure -/

/-- C9: when `ws.Read()` fails with `r.err`, the loop runs `Close(r.err)`, reads
nothing further (whatever `rest` the transport would still deliver) and returns,
and the event stream is closed with no further value on it. Every unresolved
future in the registry is resolved with the connection-closed error wrapping
`r.err`, so the call waiting on it returns that error; every future that was
already resolved keeps its resolution. -/
theorem read_failure_closes (ce : GoError) (c : Client) (r : ReadResult)
    (rest : List ReadResult) (h : r.err ≠ GoError.nil) :
    consumeMessages ce c (r :: rest) =
      ({ (Close c r.err ce).1 with eventClosed := true }, LoopStatus.returned) ∧
    (consumeMessages ce c (r :: rest)).1.eventClosed = true ∧
    (consumeMessages ce c (r :: rest)).1.event = c.event ∧
    (consumeMessages ce c (r :: rest)).1.ws.closeCalls = c.ws.closeCalls + 1 ∧
    (∀ (r2 : ReadResult) (ce2 : GoError),
      step (consumeMessages ce c (r :: rest)).1 (Step.read r2 ce2) =
        (consumeMessages ce c (r :: rest)).1) ∧
    (∀ i p pr, Load c.pending i = some p → c.heap[p]? = some pr → pr.Unresolved →
      (consumeMessages ce c (r :: rest)).1.heap[p]? =
        some { waitClosed := true, done := true, val := GoValue.nil,
               err := GoError.connClosed r.err } ∧
      ∀ b, (Call.await (consumeMessages ce c (r :: rest)).1 i p GoError.nil b).2 =
        CallOutcome.returned none (GoError.connClosed r.err)) ∧
    (∀ (q : Nat) (pr : Promise), c.heap[q]? = some pr → pr.done = true →
      (consumeMessages ce c (r :: rest)).1.heap[q]? = some pr) := by
  have hc : consumeMessages ce c (r :: rest) =
      ({ (Close c r.err ce).1 with eventClosed := true }, LoopStatus.returned) := by
    simp only [consumeMessages, ne_eq, h, not_false_eq_true, if_true]
  rw [hc]
  refine ⟨rfl, rfl, rfl, rfl, fun r2 ce2 => rfl, ?_, ?_⟩
  · intro i p pr hp hpr hun
    have hh : ({ (Close c r.err ce).1 with eventClosed := true } : Client).heap[p]? =
        some { waitClosed := true, done := true, val := GoValue.nil,
               err := GoError.connClosed r.err } :=
      Close_heap_unresolved c r.err ce i p pr hp hpr hun.1
    refine ⟨hh, fun b => ?_⟩
    rw [Call.await_of_resolved _ i p b _ hh rfl]
    simp
  · intro q pr hpr hd
    exact Close_heap_resolved c r.err ce q pr hpr hd

theorem events_in_wire_order_witness :
    (consumeMessages GoError.nil oneCallPending
        ([attachedFrame, okFrame, attachedFrame].map ReadResult.ok)).1.event =
      [decodeEvent attachedFrame, decodeEvent attachedFrame] ∧
    (consumeMessages GoError.nil oneCallPending ([attachedFrame].map ReadResult.ok)).1.event =
      [decodeEvent attachedFrame] ∧
    (consumeMessages GoError.nil oneCallPending ([attachedFrame].map ReadResult.ok)).1.heap =
      [NewPromise] ∧
    (consumeMessages GoError.nil oneCallPending
        (([attachedFrame] ++ [okFrame]).map ReadResult.ok)).1 =
      dispatch (consumeMessages GoError.nil oneCallPending
        ([attachedFrame].map ReadResult.ok)).1 okFrame :=
  ⟨(events_in_wire_order GoError.nil oneCallPending
      [attachedFrame, okFrame, attachedFrame]).2.1.trans (by decide),
    by decide, by decide,
    ((events_in_wire_order GoError.nil oneCallPending
      [attachedFrame, okFrame, attachedFrame]).2.2 [attachedFrame] okFrame [attachedFrame]
      rfl).1⟩

theorem read_failure_closes_witness :
    GoError.other "EOF" ≠ GoError.nil ∧
    Load oneServedOnePending.pending 2 = some 1 ∧
    oneServedOnePending.heap[1]? = some NewPromise ∧
    (consumeMessages GoError.nil oneServedOnePending
        [{ data := none, err := GoError.other "EOF" }, ReadResult.ok attachedFrame]).2 =
      LoopStatus.returned ∧
    (consumeMessages GoError.nil oneServedOnePending
        [{ data := none, err := GoError.other "EOF" }, ReadResult.ok attachedFrame]).1.event =
      [] ∧
    (Call.await (consumeMessages GoError.nil oneServedOnePending
        [{ data := none, err := GoError.other "EOF" }, ReadResult.ok attachedFrame]).1
        2 1 GoError.nil false).2 =
      CallOutcome.returned none (GoError.connClosed (GoError.other "EOF")) ∧
    (consumeMessages GoError.nil oneServedOnePending
        [{ data := none, err := GoError.other "EOF" }, ReadResult.ok attachedFrame]).1.heap[0]? =
      some { waitClosed := true, done := true, val := GoValue.raw (some "\x7b\"ok\":true\x7d"),
             err := GoError.nil } := by
  have h := read_failure_closes GoError.nil oneServedOnePending
    { data := none, err := GoError.other "EOF" } [ReadResult.ok attachedFrame] (by decide)
  refine ⟨by decide, by decide, by decide, ?_, h.2.2.1.trans (by decide),
    (h.2.2.2.2.2.1 2 1 NewPromise (by decide) (by decide) (by decide)).2 false,
    h.2.2.2.2.2.2 0 _ (by decide) (by decide)⟩
  rw [h.1]

/-! ## Registration order -/

/-- `Call` does not touch the registry before `ws.Send` has returned. -/
theorem Call.send_pending (c : Client) (sessionID method params : String)
    (ce : GoError) :
    (Call.send c sessionID method params GoError.nil GoError.nil ce).2.2 = none ∧
    (Call.send c sessionID method params GoError.nil GoError.nil ce).1.ws.sent =
      c.ws.sent ++ [(Call.send c sessionID method params GoError.nil GoError.nil ce).2.1] ∧
    (Call.send c sessionID method params GoError.nil GoError.nil ce).1.pending = c.pending :=
  ⟨rfl, rfl, rfl⟩

/-- C10 fails on the code: on a fresh connection `Call` hands the request with id 1
to `ws.Send` while the registry has no entry for 1. A Response for 1 dispatched
before `Call` runs its next statement finds nothing and is dropped; the promise
`Call` registers afterwards is never resolved and `Call` stays blocked. -/
theorem response_before_register_is_lost :
    oneCallSent.ws.sent =
      [{ ID := 1, SessionID := "", Method := "Page.enable", Params := "" }] ∧
    Load oneCallSent.pending 1 = none ∧
    (dispatch oneCallSent okFrame).heap = [] ∧
    (dispatch oneCallSent okFrame).pending = [] ∧
    (dispatch oneCallSent okFrame).event = [] ∧
    (Call.register (dispatch oneCallSent okFrame) 1).1.pending = [(1, 0)] ∧
    (Call.register (dispatch oneCallSent okFrame) 1).1.heap = [NewPromise] ∧
    (Call.await (Call.register (dispatch oneCallSent okFrame) 1).1 1 0 GoError.nil false).2 =
      CallOutcome.blocked := by
  decide

end Rod
